import Mathlib

/-!
Shallow embedding of the MERCAT cryptographic core: the sigma-protocol
Fiat-Shamir drivers (`encryption_proofs.rs`), the range-proof wrapper
(`range_proof.rs`), the asset-issuance engine (`mercat/asset.rs`) and the
mocked-InvestorUid command of the confidential-identity CLI
(`scp/src/main.rs`), together with theorems settling the frozen claims.

External collaborators (the elliptic-curve library, Merlin transcripts, the
Bulletproofs engine, schnorrkel signatures, the codec) and repository
modules that are not part of the sources (ElGamal encryption, the concrete
sigma statements, `mercat::account::deposit`, `mocked::make_investor_uid`)
are modelled from the specification; each such definition says so in its
doc comment. Everything else is translated directly from the sources.
-/

-- ------------------------------------------------------------------------
-- L0: curve primitives (external collaborator, modelled from the spec)
-- ------------------------------------------------------------------------

/-- Prime order of the Ristretto group used by the external curve library.
The group is cyclic of this order, so the model identifies it with the
integers mod `groupOrder`, written additively. -/
def groupOrder : Nat := 2 ^ 252 + 27742317777372353535851937790883648493

/-- A scalar: an integer modulo the prime order of the group. -/
abbrev Scalar := ZMod groupOrder

/-- A group element, identified with the exponent of a fixed generator. -/
abbrev GroupElement := ZMod groupOrder

instance : NeZero groupOrder := ⟨by decide⟩

/-- The base generator G (exponent 1 in the exponent model). -/
def genG : GroupElement := 1

/-- The second Pedersen generator H. Its concrete value lives in the
external curve library; the model fixes the exponent 3. -/
def genH : GroupElement := 3

/-- An explicit inverse of `genH`, so that cancellation by `genH` is
available without appealing to primality of `groupOrder`. -/
def genHInv : Scalar :=
  4824670384888174809315457708695329493904744239586605070667967292190302833993

theorem genH_mul_genHInv : genH * genHInv = 1 := by decide

/-- Byte strings, as lists of byte values. -/
abbrev Bytes := List Nat

/-- The bytes of an ASCII string literal. -/
def strBytes (s : String) : Bytes := s.toList.map Char.toNat

-- ------------------------------------------------------------------------
-- Error taxonomy (spec section 7; the crate's error enums are external)
-- ------------------------------------------------------------------------

/-- The error taxonomy of the core, merging the proofs-layer
`AssetProofError` of `encryption_proofs.rs` with the transaction-layer
error kinds the spec lists in section 7. -/
inductive ErrorKind where
  | VerificationError
  | ProvingError
  | CorrectnessFinalResponseVerificationError (check : Nat)
  | WellformednessFinalResponseVerificationError (check : Nat)
  | NotPublicKey
  | SignatureValidationFailure
  | InvalidInstructionError
  deriving DecidableEq

-- ------------------------------------------------------------------------
-- L1: ElGamal encryption (modelled from the spec, section 4.1;
-- `elgamal_encryption.rs` is not among the sources)
-- ------------------------------------------------------------------------

/-- `CommitmentWitness { value, blinding }`: a Pedersen opening. -/
structure CommitmentWitness where
  value : Scalar
  blinding : Scalar
  deriving DecidableEq

/-- `Ciphertext { X, Y }` with X = blinding·P and Y = blinding·G + value·H. -/
structure CipherText where
  x : GroupElement
  y : GroupElement
  deriving DecidableEq

/-- Modelled from the spec: deterministic encryption of a caller-supplied
opening, X = blinding·P, Y = blinding·G + value·H. -/
def elgamalEncrypt (pubKey : GroupElement) (w : CommitmentWitness) : CipherText :=
  ⟨w.blinding * pubKey, w.blinding * genG + w.value * genH⟩

/-- Modelled from the spec: homomorphic addition of two ciphertexts. -/
def CipherText.add (a b : CipherText) : CipherText := ⟨a.x + b.x, a.y + b.y⟩

/-- A caller-supplied RNG, modelled as an infinite stream of scalars. -/
def Rng : Type := Nat → Scalar

/-- The next scalar drawn from the RNG. -/
def Rng.head (r : Rng) : Scalar := r 0

/-- The RNG state after one draw. -/
def Rng.tail (r : Rng) : Rng := fun n => r (n + 1)

/-- Modelled from the spec: `encrypt_value(pk, value, rng)` samples a fresh
blinding from the RNG and returns the witness and the ciphertext. -/
def encryptValue (pubKey : GroupElement) (value : Nat) (rng : Rng) :
    CommitmentWitness × CipherText × Rng :=
  let w : CommitmentWitness := ⟨(value : Scalar), rng.head⟩
  (w, elgamalEncrypt pubKey w, rng.tail)

/-- Bounded discrete-log search: the smallest `v` in `[cur, cur + fuel)`
with `v·H = target`, if any. -/
def dlogSearch (target : GroupElement) : Nat → Nat → Option Nat
  | _, 0 => none
  | cur, fuel + 1 =>
    if (cur : Scalar) * genH = target then some cur
    else dlogSearch target (cur + 1) fuel

/-- The default decoding bound for ElGamal decryption (spec section 6). -/
def decodingBound : Nat := 2 ^ 32

/-- Modelled from the spec: `decrypt(sk, ct)` computes M = Y − sk·X and
recovers the `v < decodingBound` with `v·H = M` by bounded search,
failing (the `NotPublicKey` error) when there is none. The spec states
both `pk = sk·G` and that M = Y − sk·X equals v·H; the two cohere when
the public-key exponent is the inverse of `sk`, the convention used here. -/
def elgamalDecrypt (secKey : Scalar) (ct : CipherText) : Option Nat :=
  dlogSearch (ct.y - secKey * ct.x) 0 decodingBound

/-- Modelled from the spec: `verify(sk, ct, expected)` checks
Y − sk·X = expected·H. -/
def elgamalVerifyValue (secKey : Scalar) (ct : CipherText) (expected : Scalar) : Bool :=
  decide (ct.y - secKey * ct.x = expected * genH)

-- ------------------------------------------------------------------------
-- Generator bundles (bulletproofs `PedersenGens` is external; the
-- one-out-of-many bundle is modelled from the spec, section 4.3)
-- ------------------------------------------------------------------------

/-- bulletproofs `PedersenGens { B, B_blinding }`. `B` is the value
generator and `B_blinding` the blinding generator; in this model the
spec's H plays the role of `B` and G that of `B_blinding`, matching the
invariant that a ciphertext's Y component is the Pedersen commitment to
(value, blinding). -/
structure PedersenGens where
  b : GroupElement
  b_blinding : GroupElement
  deriving DecidableEq

/-- `PedersenGens::default()` of the external bulletproofs crate. -/
def PedersenGens.default : PedersenGens := ⟨genH, genG⟩

/-- The Pedersen commitment value·B + blinding·B_blinding. -/
def PedersenGens.commit (g : PedersenGens) (value blinding : Scalar) : GroupElement :=
  value * g.b + blinding * g.b_blinding

/-- Modelled from the spec: the one-out-of-many generator bundle
`OooNGens (B_comm, H_vec)` (`one_out_of_many_proof.rs` is not among the
sources). -/
structure OooNProofGenerators where
  com_gens : PedersenGens
  h_vec : List GroupElement
  deriving DecidableEq

/-- The `ProofGenerators` sum type of `encryption_proofs.rs`. -/
inductive ProofGenerators where
  | PedersenGens (gens : PedersenGens)
  | OooNGens (gens : OooNProofGenerators)
  deriving DecidableEq

-- ------------------------------------------------------------------------
-- L2: sigma framework (`encryption_proofs.rs`, translated from the source)
-- ------------------------------------------------------------------------

/-- The domain label for the encryption proofs. -/
def ENCRYPTION_PROOFS_LABEL : Bytes := strBytes "PolymathEncryptionProofs"

/-- The domain label for the challenge. -/
def ENCRYPTION_PROOFS_CHALLENGE_LABEL : Bytes := strBytes "PolymathEncryptionProofsChallenge"

/-- A Merlin transcript (external collaborator), modelled as the log of the
byte strings appended to it. -/
structure Transcript where
  log : List Bytes
  deriving DecidableEq

/-- `Transcript::new(label)`. -/
def Transcript.new (label : Bytes) : Transcript := ⟨[label]⟩

/-- A scalar challenge (`ZKPChallenge { x: Scalar }`). -/
structure ZKPChallenge where
  x : Scalar
  deriving DecidableEq

/-- `TryFrom<Scalar> for ZKPChallenge`: `ensure!(x != Scalar::zero(),
AssetProofError::VerificationError)`. -/
def ZKPChallenge.tryFrom (x : Scalar) : Except ErrorKind ZKPChallenge :=
  if x ≠ 0 then Except.ok ⟨x⟩ else Except.error ErrorKind.VerificationError

/-- The capability set of `AssetProofProverAwaitingChallenge` together with
`AssetProofProver::apply_challenge`. The associated types of the Rust
traits become the type parameters; the trait methods become fields, so
every theorem about the drivers holds for every statement implementation.
The external RNG is mutably borrowed by `create_transcript_rng`, hence the
state-passing shape. -/
structure ProverMethods (P Pr IM FR TRng : Type) where
  create_transcript_rng : P → Rng → Transcript → TRng × Rng
  generate_initial_message : P → ProofGenerators → TRng → Pr × IM
  apply_challenge : Pr → ZKPChallenge → FR

/-- The transcript-side capabilities: `UpdateTranscript::update_transcript`
of the initial-message type, and `TranscriptProtocol::scalar_challenge`
(the crate's transcript module is an external collaborator). -/
structure TranscriptMethods (IM : Type) where
  update_transcript : IM → Transcript → Except ErrorKind Transcript
  scalar_challenge : Transcript → Bytes → Except ErrorKind ZKPChallenge

/-- Threads a state through a map over a list (the shape of the prover
phase, where the external RNG is mutated by each iteration). -/
def mapWithState {A B S : Type} (f : A → S → B × S) : List A → S → List B × S
  | [], s => ([], s)
  | a :: as, s =>
    let (b, s') := f a s
    let (bs, s'') := mapWithState f as s'
    (b :: bs, s'')

/-- The generators bundle both drivers construct:
`ProofGenerators::PedersenGens(PedersenGens::default())`. -/
def encryptionProofGens : ProofGenerators :=
  ProofGenerators.PedersenGens PedersenGens.default

/-- `prove_multiple_encryption_properties`: batched Fiat-Shamir proving.
All provers share one transcript; each derives its own transcript RNG,
produces an initial message, the initial messages are folded into the
transcript, one challenge is drawn, and every prover answers it. -/
def prove_multiple_encryption_properties {P Pr IM FR TRng : Type}
    (m : ProverMethods P Pr IM FR TRng) (tm : TranscriptMethods IM)
    (provers : List P) (rng : Rng) :
    Except ErrorKind (List IM × List FR) := do
  let transcript := Transcript.new ENCRYPTION_PROOFS_LABEL
  let gens := encryptionProofGens
  let (pairs, _) := mapWithState
    (fun p r =>
      let (trng, r') := m.create_transcript_rng p r transcript
      (m.generate_initial_message p gens trng, r'))
    provers rng
  let provers_vec := pairs.map Prod.fst
  let initial_messages_vec := pairs.map Prod.snd
  let transcript ← initial_messages_vec.foldlM
    (fun t im => tm.update_transcript im t) transcript
  let challenge ← tm.scalar_challenge transcript ENCRYPTION_PROOFS_CHALLENGE_LABEL
  let final_responses := provers_vec.map (fun pr => m.apply_challenge pr challenge)
  pure (initial_messages_vec, final_responses)

/-- The verification loop `for i in 0..verifiers.len() { verifiers[i].verify(...)? }`,
walking the three equal-length slices together. -/
def verifyEach {V IM FR : Type}
    (verify : V → ProofGenerators → ZKPChallenge → IM → FR → Except ErrorKind Unit)
    (gens : ProofGenerators) (challenge : ZKPChallenge) :
    List V → List IM → List FR → Except ErrorKind Unit
  | v :: vs, im :: ims, fr :: frs => do
    verify v gens challenge im fr
    verifyEach verify gens challenge vs ims frs
  | _, _, _ => pure ()

/-- `verify_multiple_encryption_properties`: batched Fiat-Shamir
verification. Fails with `VerificationError` when the slice lengths
disagree, before anything else happens. -/
def verify_multiple_encryption_properties {V IM FR : Type}
    (verify : V → ProofGenerators → ZKPChallenge → IM → FR → Except ErrorKind Unit)
    (tm : TranscriptMethods IM)
    (verifiers : List V) (initial_messages : List IM) (final_responses : List FR) :
    Except ErrorKind Unit :=
  if initial_messages.length = final_responses.length ∧
      verifiers.length = final_responses.length then do
    let transcript := Transcript.new ENCRYPTION_PROOFS_LABEL
    let gens := encryptionProofGens
    let transcript ← initial_messages.foldlM
      (fun t im => tm.update_transcript im t) transcript
    let challenge ← tm.scalar_challenge transcript ENCRYPTION_PROOFS_CHALLENGE_LABEL
    verifyEach verify gens challenge verifiers initial_messages final_responses
  else Except.error ErrorKind.VerificationError

/-- `single_property_prover`: drive the batched prover on the one-element
list and take the head of each output vector (`Vec::remove(0)`; the
vectors have one element per prover, so the Rust panic on an empty vector
is unreachable, see `prove_multiple_length`). -/
def single_property_prover {P Pr IM FR TRng : Type}
    (m : ProverMethods P Pr IM FR TRng) (tm : TranscriptMethods IM)
    (prover_ac : P) (rng : Rng) : Except ErrorKind (IM × FR) := do
  let (initial_messages, final_responses) ←
    prove_multiple_encryption_properties m tm [prover_ac] rng
  match initial_messages, final_responses with
  | im :: _, fr :: _ => pure (im, fr)
  | _, _ => Except.error ErrorKind.VerificationError

/-- `single_property_verifier`: the batched verifier on one-element slices. -/
def single_property_verifier {V IM FR : Type}
    (verify : V → ProofGenerators → ZKPChallenge → IM → FR → Except ErrorKind Unit)
    (tm : TranscriptMethods IM)
    (verifier : V) (initial_message : IM) (final_response : FR) :
    Except ErrorKind Unit :=
  verify_multiple_encryption_properties verify tm
    [verifier] [initial_message] [final_response]

-- ------------------------------------------------------------------------
-- L5: MERCAT asset issuance (`mercat/asset.rs`, translated from the
-- source; the envelope and account types follow the spec's data model,
-- `mercat/mod.rs` not being among the sources)
-- ------------------------------------------------------------------------

/-- An ElGamal public key (a group element). -/
abbrev EncryptionPubKey := GroupElement

/-- An ElGamal secret key (a scalar). -/
abbrev EncryptionSecKey := Scalar

/-- `EncryptionKeys { pblc, scrt }`. -/
structure EncryptionKeys where
  pblc : EncryptionPubKey
  scrt : EncryptionSecKey
  deriving DecidableEq

/-- An opaque schnorrkel public key (the signing library is external). -/
abbrev SigningPubKey := Nat

/-- An opaque schnorrkel keypair. -/
abbrev SigningKeys := Nat

/-- An opaque 64-byte schnorrkel signature. -/
abbrev Signature := Nat

/-- Opaque payload of an `EncryptingSameValue` proof envelope. -/
abbrev CipherEqualDifferentPubKeyProof := Nat

/-- Opaque payload of a wellformedness proof envelope. -/
abbrev WellformednessProof := Nat

/-- Opaque payload of a correctness proof envelope. -/
abbrev CorrectnessProof := Nat

/-- Opaque payload of a membership proof envelope. -/
abbrev MembershipProof := Nat

/-- `AccountMemo { owner_enc_pub_key, owner_sign_pub_key }`. -/
structure AccountMemo where
  owner_enc_pub_key : EncryptionPubKey
  owner_sign_pub_key : SigningPubKey
  deriving DecidableEq

/-- The public part of a MERCAT account (spec section 3). -/
structure PubAccountContent where
  id : Nat
  enc_asset_id : CipherText
  enc_balance : CipherText
  asset_wellformedness_proof : WellformednessProof
  asset_membership_proof : MembershipProof
  initial_balance_correctness_proof : CorrectnessProof
  memo : AccountMemo
  deriving DecidableEq

/-- `PubAccount { content, initial_sig }`. -/
structure PubAccount where
  content : PubAccountContent
  initial_sig : Signature
  deriving DecidableEq

/-- `SecAccount { enc_keys, sign_keys, asset_id_witness }`. -/
structure SecAccount where
  enc_keys : EncryptionKeys
  sign_keys : SigningKeys
  asset_id_witness : CommitmentWitness
  deriving DecidableEq

/-- `AssetTxContent`: the content of an initialized asset transaction. -/
structure AssetTxContent where
  account_id : Nat
  enc_asset_id : CipherText
  enc_amount : CipherText
  memo : CipherText
  asset_id_equal_cipher_proof : CipherEqualDifferentPubKeyProof
  balance_wellformedness_proof : WellformednessProof
  balance_correctness_proof : CorrectnessProof
  deriving DecidableEq

/-- `InitializedAssetTx { content, sig }`. -/
structure InitializedAssetTx where
  content : AssetTxContent
  sig : Signature
  deriving DecidableEq

/-- `JustifiedAssetTx { content, sig }`. -/
structure JustifiedAssetTx where
  content : InitializedAssetTx
  sig : Signature
  deriving DecidableEq

/-- The statement fields of `EncryptingSameValueVerifier`. -/
structure EncryptingSameValueVerifier where
  pub_key1 : EncryptionPubKey
  pub_key2 : EncryptionPubKey
  cipher1 : CipherText
  cipher2 : CipherText
  pc_gens : PedersenGens
  deriving DecidableEq

/-- The statement fields of `WellformednessVerifier`. -/
structure WellformednessVerifier where
  pub_key : EncryptionPubKey
  cipher : CipherText
  pc_gens : PedersenGens
  deriving DecidableEq

/-- The statement fields of `CorrectnessVerifier`. -/
structure CorrectnessVerifier where
  value : Scalar
  pub_key : EncryptionPubKey
  cipher : CipherText
  pc_gens : PedersenGens
  deriving DecidableEq

/-- The fields of `EncryptingSameValueProverAwaitingChallenge`. -/
structure EncryptingSameValueProverAwaitingChallenge where
  pub_key1 : EncryptionPubKey
  pub_key2 : EncryptionPubKey
  w : CommitmentWitness
  pc_gens : PedersenGens
  deriving DecidableEq

/-- The fields of `WellformednessProverAwaitingChallenge`. -/
structure WellformednessProverAwaitingChallenge where
  pub_key : EncryptionPubKey
  w : CommitmentWitness
  pc_gens : PedersenGens
  deriving DecidableEq

/-- The fields of `CorrectnessProverAwaitingChallenge`. -/
structure CorrectnessProverAwaitingChallenge where
  pub_key : EncryptionPubKey
  w : CommitmentWitness
  pc_gens : PedersenGens
  deriving DecidableEq

/-- The external collaborators the asset-issuance engine composes: the
codec (`Encode`), schnorrkel signing and verification, and the concrete
sigma-statement provers and verifiers (their files are not among the
sources, so each `single_property_prover`/`single_property_verifier` call
on a concrete statement is abstracted as one function; every theorem below
holds for every instantiation). `sign` and `verifySig` take the signing
context bytes and the message bytes. -/
structure MercatEnv where
  encodeContent : AssetTxContent → Bytes
  encodeInitTx : InitializedAssetTx → Bytes
  sign : SigningKeys → Bytes → Bytes → Signature
  verifySig : SigningPubKey → Bytes → Bytes → Signature → Except ErrorKind Unit
  verifySameValue : EncryptingSameValueVerifier → CipherEqualDifferentPubKeyProof →
    Except ErrorKind Unit
  verifyWellformedness : WellformednessVerifier → WellformednessProof →
    Except ErrorKind Unit
  verifyCorrectness : CorrectnessVerifier → CorrectnessProof → Except ErrorKind Unit
  proveSameValue : EncryptingSameValueProverAwaitingChallenge → Rng →
    Except ErrorKind (CipherEqualDifferentPubKeyProof × Rng)
  proveWellformedness : WellformednessProverAwaitingChallenge → Rng →
    Except ErrorKind (WellformednessProof × Rng)
  proveCorrectness : CorrectnessProverAwaitingChallenge → Rng →
    Except ErrorKind (CorrectnessProof × Rng)

/-- The signing context `signing_context(b"mercat/asset")`. -/
def SIG_CTXT : Bytes := strBytes "mercat/asset"

/-- `asset_issuance_init_verify`: verify the issuer signature over the
encoded content, then the encrypting-same-value proof binding the
account's asset id to the mediator copy, then the wellformedness proof of
the memo. -/
def asset_issuance_init_verify (env : MercatEnv) (asset_tx : InitializedAssetTx)
    (issr_pub_account : PubAccount) (mdtr_enc_pub_key : EncryptionPubKey) :
    Except ErrorKind Unit := do
  let gens := PedersenGens.default
  let message := env.encodeContent asset_tx.content
  env.verifySig issr_pub_account.content.memo.owner_sign_pub_key SIG_CTXT message
    asset_tx.sig
  env.verifySameValue
    ⟨issr_pub_account.content.memo.owner_enc_pub_key, mdtr_enc_pub_key,
      issr_pub_account.content.enc_asset_id, asset_tx.content.enc_asset_id, gens⟩
    asset_tx.content.asset_id_equal_cipher_proof
  env.verifyWellformedness
    ⟨issr_pub_account.content.memo.owner_enc_pub_key, asset_tx.content.memo, gens⟩
    asset_tx.content.balance_wellformedness_proof

/-- `AssetIssuer::initialize_asset_transaction`. -/
def initialize_asset_transaction (env : MercatEnv) (issr_account_id : Nat)
    (issr_account : SecAccount) (mdtr_pub_key : EncryptionPubKey)
    (amount : Nat) (rng : Rng) : Except ErrorKind InitializedAssetTx := do
  let gens := PedersenGens.default
  let mdtr_enc_asset_id := elgamalEncrypt mdtr_pub_key issr_account.asset_id_witness
  let (_, mdtr_enc_amount, rng) := encryptValue mdtr_pub_key amount rng
  let (issr_amount_witness, issr_enc_amount, rng) :=
    encryptValue issr_account.enc_keys.pblc amount rng
  let memo := issr_enc_amount
  let (same_asset_id_cipher_proof, rng) ← env.proveSameValue
    ⟨issr_account.enc_keys.pblc, mdtr_pub_key, issr_account.asset_id_witness, gens⟩ rng
  let (memo_wellformedness_proof, rng) ← env.proveWellformedness
    ⟨issr_account.enc_keys.pblc, issr_amount_witness, gens⟩ rng
  let (memo_correctness_proof, _) ← env.proveCorrectness
    ⟨issr_account.enc_keys.pblc, issr_amount_witness, gens⟩ rng
  let content : AssetTxContent :=
    ⟨issr_account_id, mdtr_enc_asset_id, mdtr_enc_amount, memo,
      same_asset_id_cipher_proof, memo_wellformedness_proof, memo_correctness_proof⟩
  let sig := env.sign issr_account.sign_keys SIG_CTXT (env.encodeContent content)
  pure ⟨content, sig⟩

/-- `verify_initialization` simply wraps `asset_issuance_init_verify`. -/
def verify_initialization (env : MercatEnv) (asset_tx : InitializedAssetTx)
    (issr_pub_account : PubAccount) (mdtr_enc_pub_key : EncryptionPubKey) :
    Except ErrorKind Unit :=
  asset_issuance_init_verify env asset_tx issr_pub_account mdtr_enc_pub_key

/-- Modelled from the spec (`mercat/account.rs` is not among the sources):
`account::deposit` replaces the account's encrypted balance by the
homomorphic sum of the current balance and the deposited ciphertext,
leaving every other field unchanged. -/
def deposit (account : PubAccount) (enc_amount : CipherText) : PubAccount :=
  { account with content :=
    { account.content with
        enc_balance := account.content.enc_balance.add enc_amount } }

/-- `AssetValidator::verify_asset_transaction`: verify the mediator
signature over the encoded initialized transaction, re-run the issuer's
initialization checks, then process the transaction by depositing the memo
ciphertext into the issuer's account. -/
def verify_asset_transaction (env : MercatEnv) (justified_asset_tx : JustifiedAssetTx)
    (issr_account : PubAccount) (mdtr_enc_pub_key : EncryptionPubKey)
    (mdtr_sign_pub_key : SigningPubKey) : Except ErrorKind PubAccount := do
  let message := env.encodeInitTx justified_asset_tx.content
  env.verifySig mdtr_sign_pub_key SIG_CTXT message justified_asset_tx.sig
  let initialized_asset_tx := justified_asset_tx.content
  verify_initialization env initialized_asset_tx issr_account mdtr_enc_pub_key
  pure (deposit issr_account initialized_asset_tx.content.memo)

/-- `AssetMediator::justify_asset_transaction`: revalidate all the
initialization proofs and the issuer signature, decrypt the amount
encrypted to the mediator, verify the correctness proof against the
recovered amount, and sign the whole initialized transaction. -/
def justify_asset_transaction (env : MercatEnv)
    (initialized_asset_tx : InitializedAssetTx) (issr_pub_account : PubAccount)
    (mdtr_enc_keys : EncryptionKeys) (mdtr_sign_keys : SigningKeys) :
    Except ErrorKind JustifiedAssetTx := do
  let gens := PedersenGens.default
  asset_issuance_init_verify env initialized_asset_tx issr_pub_account mdtr_enc_keys.pblc
  let amount ← match elgamalDecrypt mdtr_enc_keys.scrt
      initialized_asset_tx.content.enc_amount with
    | some v => pure v
    | none => Except.error ErrorKind.NotPublicKey
  env.verifyCorrectness
    ⟨(amount : Scalar), issr_pub_account.content.memo.owner_enc_pub_key,
      initialized_asset_tx.content.memo, gens⟩
    initialized_asset_tx.content.balance_correctness_proof
  let message := env.encodeInitTx initialized_asset_tx
  let sig := env.sign mdtr_sign_keys SIG_CTXT message
  pure ⟨initialized_asset_tx, sig⟩

-- ------------------------------------------------------------------------
-- L4: range proof wrapper (`range_proof.rs`, translated from the source;
-- the Bulletproofs engine itself is an external collaborator and is
-- modelled from the spec and the repository's own range-proof test)
-- ------------------------------------------------------------------------

/-- The range-proof transcript label. -/
def RANGE_PROOF_LABEL : Bytes := strBytes "PolymathRangeProof"

/-- Modelled from the spec: an external bulletproofs `RangeProof`, as the
statement data it attests to. Proving records the (value, blinding)
opening; out-of-range values still produce a proof object, which then
fails verification (as the repository's `basic_range_proof` test
exercises). -/
structure BulletRangeProof where
  value : Nat
  blinding : Scalar
  deriving DecidableEq

/-- The bitsizes the Bulletproofs engine supports. -/
def validBitsize (range : Nat) : Bool :=
  range == 8 || range == 16 || range == 32 || range == 64

/-- Modelled from the spec: `RangeProof::prove_single` fails only when the
bitsize is unsupported; it returns the proof object together with the
Pedersen commitment to (value, blinding). -/
def bulletProveSingle (pc_gens : PedersenGens) (secret_value : Nat)
    (rand_blind : Scalar) (range : Nat) :
    Except ErrorKind (BulletRangeProof × GroupElement) :=
  if validBitsize range then
    Except.ok (⟨secret_value, rand_blind⟩,
      pc_gens.commit (secret_value : Scalar) rand_blind)
  else Except.error ErrorKind.ProvingError

/-- Modelled from the spec: `RangeProof::verify_single` accepts exactly
when the bitsize is supported, the attested value fits in it, and the
commitment opens to the attested (value, blinding). -/
def bulletVerifySingle (proof : BulletRangeProof) (pc_gens : PedersenGens)
    (commitment : GroupElement) (range : Nat) : Bool :=
  validBitsize range && decide (proof.value < 2 ^ range) &&
    decide (commitment = pc_gens.commit (proof.value : Scalar) proof.blinding)

/-- `RangeProofInitialMessage(CompressedRistretto)`. -/
structure RangeProofInitialMessage where
  c : GroupElement
  deriving DecidableEq

/-- `RangeProofFinalResponse(RangeProof)`. -/
structure RangeProofFinalResponse where
  p : BulletRangeProof
  deriving DecidableEq

/-- `prove_within_range`: drive the Bulletproofs prover with the default
Pedersen generators and the `"PolymathRangeProof"` transcript, mapping an
engine failure to `ProvingError`. -/
def prove_within_range (secret_value : Nat) (rand_blind : Scalar) (range : Nat) :
    Except ErrorKind (RangeProofInitialMessage × RangeProofFinalResponse) := do
  let pc_gens := PedersenGens.default
  let (proof, commitment) ← bulletProveSingle pc_gens secret_value rand_blind range
  pure (⟨commitment⟩, ⟨proof⟩)

/-- `verify_within_range`: drive the Bulletproofs verifier on the received
commitment and proof at the given bitsize. -/
def verify_within_range (commitment : RangeProofInitialMessage)
    (proof : RangeProofFinalResponse) (range : Nat) : Bool :=
  bulletVerifySingle proof.p PedersenGens.default commitment.c range

-- ------------------------------------------------------------------------
-- Confidential-identity CLI: create-mocked-investor-uid
-- (`scp/src/main.rs`, translated from the source; the library function
-- `mocked::make_investor_uid` is modelled from the spec)
-- ------------------------------------------------------------------------

/-- The value of a hex digit character, if it is one. -/
def hexDigitToNat (c : Char) : Option Nat :=
  if '0' ≤ c ∧ c ≤ '9' then some (c.toNat - '0'.toNat)
  else if 'a' ≤ c ∧ c ≤ 'f' then some (c.toNat - 'a'.toNat + 10)
  else if 'A' ≤ c ∧ c ≤ 'F' then some (c.toNat - 'A'.toNat + 10)
  else none

/-- `hex::decode` (external crate): pairs of hex digits to bytes; fails on
a non-digit or an odd length. -/
def hexDecode : List Char → Option (List Nat)
  | [] => some []
  | [_] => none
  | c1 :: c2 :: rest => do
    let hi ← hexDigitToNat c1
    let lo ← hexDigitToNat c2
    let tail ← hexDecode rest
    pure ((16 * hi + lo) :: tail)

/-- The lowercase hex digit for a value below 16. -/
def natToHexDigit (n : Nat) : Char :=
  if n < 10 then Char.ofNat ('0'.toNat + n) else Char.ofNat ('a'.toNat + n - 10)

/-- `hex::encode` (external crate): each byte as two lowercase hex digits. -/
def hexEncode : List Nat → List Char
  | [] => []
  | b :: rest => natToHexDigit (b % 256 / 16) :: natToHexDigit (b % 16) :: hexEncode rest

/-- One byte of the mock digest over the DID bytes. -/
def mockDigestByte (did : List Nat) (i : Nat) : Nat :=
  did.foldl (fun acc b => (acc * 31 + b) % 256) (i * 17 % 256)

/-- Modelled from the spec: `mocked::make_investor_uid` (the
confidential-identity library is not among the sources) deterministically
hashes the DID bytes into a 16-byte value in the UUID v4 layout. The spec
leaves the hash unspecified; the model uses a simple deterministic
byte-mixing digest and stamps the v4 version and variant bits on bytes 6
and 8. -/
def make_investor_uid (did : List Nat) : List Nat :=
  [mockDigestByte did 0, mockDigestByte did 1, mockDigestByte did 2,
   mockDigestByte did 3, mockDigestByte did 4, mockDigestByte did 5,
   64 + mockDigestByte did 6 % 16, mockDigestByte did 7,
   128 + mockDigestByte did 8 % 64, mockDigestByte did 9,
   mockDigestByte did 10, mockDigestByte did 11, mockDigestByte did 12,
   mockDigestByte did 13, mockDigestByte did 14, mockDigestByte did 15]

/-- Drop an optional leading "0x" (the CLI's use of the standard strip
method with that pattern). -/
def dropHexMarker (s : List Char) : List Char :=
  match s with
  | '0' :: 'x' :: rest => rest
  | other => other

/-- The CLI's DID sanitation: drop an optional "0x", then remove every
dash. -/
def sanitizeDid (did : List Char) : List Char :=
  (dropHexMarker did).filter (fun c => c ≠ '-')

/-- `process_create_mocked_investor_uid`: sanitize the DID, hex-decode it,
require exactly 32 bytes, compute the mocked InvestorUid and print it,
either as plain hex or in the UUID 8-4-4-4-12 grouping. The `expect` and
`assert!` aborts of the CLI are modelled as error returns carrying the
CLI's message. -/
def process_create_mocked_investor_uid (did : List Char) (formatted : Bool) :
    Except (List Char) (List Char) :=
  match hexDecode (sanitizeDid did) with
  | none => Except.error "Invalid input DID, please use hex format".toList
  | some raw_did =>
    if raw_did.length = 32 then
      let investor_uid := make_investor_uid raw_did
      if formatted then
        Except.ok (hexEncode (investor_uid.take 4) ++ ['-'] ++
          hexEncode ((investor_uid.drop 4).take 2) ++ ['-'] ++
          hexEncode ((investor_uid.drop 6).take 2) ++ ['-'] ++
          hexEncode ((investor_uid.drop 8).take 2) ++ ['-'] ++
          hexEncode (investor_uid.drop 10))
      else Except.ok (hexEncode investor_uid)
    else Except.error "Invalid input DID, len should be 64 hex characters".toList

-- ------------------------------------------------------------------------
-- Shared concrete instantiations used by witnesses
-- ------------------------------------------------------------------------

/-- A trivial transcript-method bundle over unit initial messages. -/
def trivialTM : TranscriptMethods Unit :=
  ⟨fun _ t => Except.ok t, fun _ _ => Except.ok ⟨1⟩⟩

/-- A verifier callback that accepts everything (unit statement types). -/
def trivialVerify : Unit → ProofGenerators → ZKPChallenge → Unit → Unit →
    Except ErrorKind Unit :=
  fun _ _ _ _ _ => Except.ok ()

/-- A trivial prover-method bundle over unit types. -/
def trivialPM : ProverMethods Unit Unit Unit Unit Unit :=
  ⟨fun _ r _ => ((), r), fun _ _ _ => ((), ()), fun _ _ => ()⟩

/-- The all-zeros RNG stream. -/
def rngZero : Rng := fun _ => 0

-- ------------------------------------------------------------------------
-- C6: the ZKPChallenge constructor rejects exactly the zero scalar
-- ------------------------------------------------------------------------

/-- C6: `ZKPChallenge::try_from(x)` returns `VerificationError` exactly when
`x` is the zero scalar, and otherwise a challenge storing `x` itself; any
challenge it constructs therefore carries a non-zero scalar. -/
theorem C6_zkp_challenge_tryFrom (x : Scalar) :
    (ZKPChallenge.tryFrom x = Except.error ErrorKind.VerificationError ↔ x = 0) ∧
    (∀ c : ZKPChallenge, ZKPChallenge.tryFrom x = Except.ok c → c.x = x ∧ c.x ≠ 0) := by
  unfold ZKPChallenge.tryFrom
  by_cases h : x = 0
  · subst h
    simp
  · simp only [h, ne_eq, not_false_iff, if_true]
    constructor
    · simp [h]
    · intro c hc
      cases hc
      exact ⟨rfl, h⟩

/-- Witness for C6 at the concrete scalars 0 and 5. -/
theorem C6_zkp_challenge_tryFrom_witness :
    ZKPChallenge.tryFrom 0 = Except.error ErrorKind.VerificationError ∧
    ((⟨5⟩ : ZKPChallenge).x = 5 ∧ (⟨5⟩ : ZKPChallenge).x ≠ 0) :=
  ⟨(C6_zkp_challenge_tryFrom 0).1.mpr rfl,
   (C6_zkp_challenge_tryFrom 5).2 ⟨5⟩ (by
      unfold ZKPChallenge.tryFrom
      rw [if_pos (by decide : (5 : Scalar) ≠ 0)])⟩

-- ------------------------------------------------------------------------
-- C7: the batched verifier rejects mismatched slice lengths up front
-- ------------------------------------------------------------------------

/-- C7: whenever the three slice lengths are not all equal,
`verify_multiple_encryption_properties` returns `VerificationError`, and it
does so for every verifier implementation and transcript behaviour — no
individual `verify` is ever consulted on that path. -/
theorem C7_verify_multiple_length_mismatch {V IM FR : Type}
    (verify : V → ProofGenerators → ZKPChallenge → IM → FR → Except ErrorKind Unit)
    (tm : TranscriptMethods IM)
    (verifiers : List V) (initial_messages : List IM) (final_responses : List FR)
    (h : ¬ (initial_messages.length = final_responses.length ∧
            verifiers.length = final_responses.length)) :
    verify_multiple_encryption_properties verify tm verifiers initial_messages
      final_responses = Except.error ErrorKind.VerificationError := by
  unfold verify_multiple_encryption_properties
  rw [if_neg h]

/-- Witness for C7: one verifier against empty message slices. -/
theorem C7_verify_multiple_length_mismatch_witness :
    verify_multiple_encryption_properties trivialVerify trivialTM [()] [] [] =
      Except.error ErrorKind.VerificationError :=
  C7_verify_multiple_length_mismatch trivialVerify trivialTM [()] [] [] (by simp)

-- ------------------------------------------------------------------------
-- C5: out-of-range values never yield a verifying range proof
-- ------------------------------------------------------------------------

/-- C5: for any value exceeding 2^bitsize − 1 at a supported bitsize,
`prove_within_range` either fails or its output fails `verify_within_range`
(in this model it always succeeds and the proof fails verification); in
particular at value u32::MAX + 3 and bitsize 32 the proof is produced but
does not verify. -/
theorem C5_range_soundness (v : Nat) (r : Scalar) (bitsize : Nat)
    (hbit : bitsize = 8 ∨ bitsize = 16 ∨ bitsize = 32 ∨ bitsize = 64)
    (hv : 2 ^ bitsize - 1 < v) :
    (∀ im fr, prove_within_range v r bitsize = Except.ok (im, fr) →
      verify_within_range im fr bitsize = false) ∧
    (∃ im fr, prove_within_range (2 ^ 32 + 2) r 32 = Except.ok (im, fr) ∧
      verify_within_range im fr 32 = false) := by
  have hvb : validBitsize bitsize = true := by
    rcases hbit with h | h | h | h <;> subst h <;> rfl
  have hnotlt : ¬ v < 2 ^ bitsize := Nat.not_lt.mpr (Nat.le_of_pred_lt hv)
  constructor
  · intro im fr hok
    simp only [prove_within_range, bulletProveSingle, hvb, if_true, bind, pure,
      Except.bind, Except.pure, Except.ok.injEq, Prod.mk.injEq] at hok
    obtain ⟨him, hfr⟩ := hok
    subst him
    subst hfr
    simp [verify_within_range, bulletVerifySingle, hnotlt]
  · refine ⟨⟨PedersenGens.default.commit ((2 ^ 32 + 2 : Nat) : Scalar) r⟩,
      ⟨⟨2 ^ 32 + 2, r⟩⟩, rfl, ?_⟩
    have : ¬ (2 ^ 32 + 2 < 2 ^ 32) := by omega
    simp [verify_within_range, bulletVerifySingle, this]

/-- Witness for C5 at value u32::MAX + 3, blinding 0, bitsize 32. -/
theorem C5_range_soundness_witness :
    prove_within_range (2 ^ 32 + 2) 0 32 =
      Except.ok (⟨PedersenGens.default.commit ((2 ^ 32 + 2 : Nat) : Scalar) 0⟩,
        ⟨⟨2 ^ 32 + 2, 0⟩⟩) ∧
    verify_within_range ⟨PedersenGens.default.commit ((2 ^ 32 + 2 : Nat) : Scalar) 0⟩
      ⟨⟨2 ^ 32 + 2, 0⟩⟩ 32 = false :=
  ⟨rfl,
   (C5_range_soundness (2 ^ 32 + 2) 0 32 (Or.inr (Or.inr (Or.inl rfl)))
      (by norm_num)).1 _ _ rfl⟩

-- ------------------------------------------------------------------------
-- C9: the create-mocked-investor-uid command
-- ------------------------------------------------------------------------

/-- C9: for a DID whose sanitized form hex-decodes to exactly 32 bytes, the
command outputs the 16-byte `make_investor_uid` digest of those bytes (hex
encoded); with the formatted flag the output is the same digest in the
UUID 8-4-4-4-12 grouping; and any input with the same sanitized form
yields the same output. -/
theorem C9_create_mocked_investor_uid (did : List Char) (raw : List Nat)
    (h : hexDecode (sanitizeDid did) = some raw) (hlen : raw.length = 32) :
    (make_investor_uid raw).length = 16 ∧
    process_create_mocked_investor_uid did false =
      Except.ok (hexEncode (make_investor_uid raw)) ∧
    process_create_mocked_investor_uid did true =
      Except.ok (hexEncode ((make_investor_uid raw).take 4) ++ ['-'] ++
        hexEncode (((make_investor_uid raw).drop 4).take 2) ++ ['-'] ++
        hexEncode (((make_investor_uid raw).drop 6).take 2) ++ ['-'] ++
        hexEncode (((make_investor_uid raw).drop 8).take 2) ++ ['-'] ++
        hexEncode ((make_investor_uid raw).drop 10)) ∧
    (∀ did2 : List Char, sanitizeDid did2 = sanitizeDid did →
      process_create_mocked_investor_uid did2 false =
        process_create_mocked_investor_uid did false ∧
      process_create_mocked_investor_uid did2 true =
        process_create_mocked_investor_uid did true) := by
  refine ⟨rfl, ?_, ?_, ?_⟩
  · simp [process_create_mocked_investor_uid, h, hlen]
  · simp [process_create_mocked_investor_uid, h, hlen]
  · intro did2 h2
    unfold process_create_mocked_investor_uid
    rw [h2]
    exact ⟨rfl, rfl⟩

/-- The 64-hex-character DID `"0x06"` followed by 62 zero digits. -/
def didExample : List Char := ['0', 'x', '0', '6'] ++ List.replicate 62 '0'

/-- Its 32 decoded bytes. -/
def didExampleBytes : List Nat := 6 :: List.replicate 31 0

/-- Witness for C9 at the spec's concrete scenario S6 input. -/
theorem C9_create_mocked_investor_uid_witness :
    process_create_mocked_investor_uid didExample false =
      Except.ok (hexEncode (make_investor_uid didExampleBytes)) ∧
    (make_investor_uid didExampleBytes).length = 16 :=
  ⟨(C9_create_mocked_investor_uid didExample didExampleBytes (by decide)
      (by decide)).2.1,
   (C9_create_mocked_investor_uid didExample didExampleBytes (by decide)
      (by decide)).1⟩

-- ------------------------------------------------------------------------
-- C8: the single-statement drivers are the one-element batched case
-- ------------------------------------------------------------------------

theorem mapWithState_fst_length {A B S : Type} (f : A → S → B × S) (l : List A) (s : S) :
    (mapWithState f l s).1.length = l.length := by
  induction l generalizing s with
  | nil => rfl
  | cons a as ih => simp [mapWithState, ih]

/-- The batched prover returns one initial message and one final response
per prover. -/
theorem prove_multiple_length {P Pr IM FR TRng : Type}
    (m : ProverMethods P Pr IM FR TRng) (tm : TranscriptMethods IM)
    (provers : List P) (rng : Rng) (ims : List IM) (frs : List FR)
    (h : prove_multiple_encryption_properties m tm provers rng = Except.ok (ims, frs)) :
    ims.length = provers.length ∧ frs.length = provers.length := by
  simp only [prove_multiple_encryption_properties] at h
  rcases hp : mapWithState
      (fun p r =>
        let (trng, r') := m.create_transcript_rng p r
          (Transcript.new ENCRYPTION_PROOFS_LABEL)
        (m.generate_initial_message p encryptionProofGens trng, r'))
      provers rng with ⟨pairs, rngF⟩
  rw [hp] at h
  cases hf : (pairs.map Prod.snd).foldlM
      (fun t im => tm.update_transcript im t)
      (Transcript.new ENCRYPTION_PROOFS_LABEL) with
  | error e =>
    rw [hf] at h
    simp [bind, Except.bind] at h
  | ok t =>
    rw [hf] at h
    simp only [bind, Except.bind] at h
    cases hcch : tm.scalar_challenge t ENCRYPTION_PROOFS_CHALLENGE_LABEL with
    | error e =>
      rw [hcch] at h
      simp [bind, Except.bind] at h
    | ok challenge =>
      rw [hcch] at h
      simp only [bind, Except.bind, pure, Except.pure, Except.ok.injEq,
        Prod.mk.injEq] at h
      obtain ⟨h1, h2⟩ := h
      have hplen : pairs.length = provers.length := by
        have := mapWithState_fst_length
          (fun p r =>
            let (trng, r') := m.create_transcript_rng p r
              (Transcript.new ENCRYPTION_PROOFS_LABEL)
            (m.generate_initial_message p encryptionProofGens trng, r'))
          provers rng
        rw [hp] at this
        exact this
      constructor
      · rw [← h1, List.length_map, hplen]
      · rw [← h2, List.length_map, List.length_map, hplen]

/-- C8: `single_property_prover` returns exactly the head of the
one-element output vectors of `prove_multiple_encryption_properties` on
the one-element prover list, and `single_property_verifier` is the batched
verifier on the corresponding one-element slices. -/
theorem C8_single_drivers_are_batched_case {P Pr IM FR TRng V IM2 FR2 : Type}
    (m : ProverMethods P Pr IM FR TRng) (tm : TranscriptMethods IM)
    (p : P) (rng : Rng)
    (verify : V → ProofGenerators → ZKPChallenge → IM2 → FR2 → Except ErrorKind Unit)
    (tm2 : TranscriptMethods IM2) (v : V) (im : IM2) (fr : FR2) :
    (∀ ims frs,
      prove_multiple_encryption_properties m tm [p] rng = Except.ok (ims, frs) →
      ∃ i f, ims = [i] ∧ frs = [f] ∧
        single_property_prover m tm p rng = Except.ok (i, f)) ∧
    single_property_verifier verify tm2 v im fr =
      verify_multiple_encryption_properties verify tm2 [v] [im] [fr] := by
  constructor
  · intro ims frs h
    obtain ⟨h1, h2⟩ := prove_multiple_length m tm [p] rng ims frs h
    match ims, frs, h1, h2 with
    | [i], [f], _, _ =>
      refine ⟨i, f, rfl, rfl, ?_⟩
      simp only [single_property_prover, h, bind, Except.bind]
      rfl
  · rfl

/-- Witness for C8 on the trivial unit-typed statement. -/
theorem C8_single_drivers_witness :
    single_property_prover trivialPM trivialTM () rngZero = Except.ok ((), ()) ∧
    single_property_verifier trivialVerify trivialTM () () () =
      verify_multiple_encryption_properties trivialVerify trivialTM [()] [()] [()] := by
  constructor
  · obtain ⟨i, f, hi, hf, hs⟩ :=
      (C8_single_drivers_are_batched_case trivialPM trivialTM () rngZero
        trivialVerify trivialTM () () ()).1 [()] [()] rfl
    exact hs
  · exact (C8_single_drivers_are_batched_case trivialPM trivialTM () rngZero
      trivialVerify trivialTM () () ()).2

-- ------------------------------------------------------------------------
-- C10: the drivers only ever pass the default Pedersen generator bundle
-- ------------------------------------------------------------------------

theorem mapWithState_congr {A B S : Type} (f g : A → S → B × S)
    (h : ∀ a s, f a s = g a s) (l : List A) (s : S) :
    mapWithState f l s = mapWithState g l s := by
  induction l generalizing s with
  | nil => rfl
  | cons a as ih => simp [mapWithState, h, ih]

theorem verifyEach_congr {V IM FR : Type}
    (verify verify' : V → ProofGenerators → ZKPChallenge → IM → FR →
      Except ErrorKind Unit)
    (gens : ProofGenerators) (challenge : ZKPChallenge)
    (h : ∀ x c i f, verify x gens c i f = verify' x gens c i f)
    (vs : List V) (ims : List IM) (frs : List FR) :
    verifyEach verify gens challenge vs ims frs =
      verifyEach verify' gens challenge vs ims frs := by
  induction vs generalizing ims frs with
  | nil => rfl
  | cons v vs ih =>
    cases ims with
    | nil => rfl
    | cons im ims =>
      cases frs with
      | nil => rfl
      | cons fr frs =>
        simp only [verifyEach, h, ih]

/-- C10: the Fiat-Shamir drivers consult the statement callbacks only at
`ProofGenerators::PedersenGens(PedersenGens::default())`: their outcomes
are unchanged under replacing the callbacks by any functions that agree at
that bundle (and may behave arbitrarily at any `OooNGens` bundle), and the
bundle both drivers construct is the `PedersenGens` variant holding the
default generators. -/
theorem C10_drivers_use_default_pedersen_gens {P Pr IM FR TRng V IM2 FR2 : Type}
    (m m' : ProverMethods P Pr IM FR TRng) (tm : TranscriptMethods IM)
    (hc : m.create_transcript_rng = m'.create_transcript_rng)
    (hg : ∀ p trng, m.generate_initial_message p encryptionProofGens trng =
      m'.generate_initial_message p encryptionProofGens trng)
    (ha : m.apply_challenge = m'.apply_challenge)
    (provers : List P) (rng : Rng)
    (verify verify' : V → ProofGenerators → ZKPChallenge → IM2 → FR2 →
      Except ErrorKind Unit)
    (tm2 : TranscriptMethods IM2)
    (hv : ∀ x c i f, verify x encryptionProofGens c i f =
      verify' x encryptionProofGens c i f)
    (verifiers : List V) (ims : List IM2) (frs : List FR2) :
    prove_multiple_encryption_properties m tm provers rng =
      prove_multiple_encryption_properties m' tm provers rng ∧
    verify_multiple_encryption_properties verify tm2 verifiers ims frs =
      verify_multiple_encryption_properties verify' tm2 verifiers ims frs ∧
    encryptionProofGens = ProofGenerators.PedersenGens PedersenGens.default := by
  refine ⟨?_, ?_, rfl⟩
  · simp only [prove_multiple_encryption_properties]
    rw [mapWithState_congr
      (fun p r =>
        let (trng, r') := m.create_transcript_rng p r
          (Transcript.new ENCRYPTION_PROOFS_LABEL)
        (m.generate_initial_message p encryptionProofGens trng, r'))
      (fun p r =>
        let (trng, r') := m'.create_transcript_rng p r
          (Transcript.new ENCRYPTION_PROOFS_LABEL)
        (m'.generate_initial_message p encryptionProofGens trng, r'))
      (by
        intro a s
        rw [hc]
        cases hpr : m'.create_transcript_rng a s (Transcript.new ENCRYPTION_PROOFS_LABEL)
        simp [hg])
      provers rng, ha]
  · simp only [verify_multiple_encryption_properties]
    split
    · cases hfold : List.foldlM (fun t im => tm2.update_transcript im t)
          (Transcript.new ENCRYPTION_PROOFS_LABEL) ims with
      | error e => rfl
      | ok t =>
        simp only [bind, Except.bind]
        cases hch : tm2.scalar_challenge t ENCRYPTION_PROOFS_CHALLENGE_LABEL with
        | error e => rfl
        | ok challenge =>
          simp only [bind, Except.bind]
          exact verifyEach_congr verify verify' encryptionProofGens challenge hv
            verifiers ims frs
    · rfl

/-- A verifier callback that accepts at any Pedersen bundle but rejects at
any one-out-of-many bundle; it agrees with `trivialVerify` at the default
bundle yet differs from it as a function. -/
def oooNRejectingVerify : Unit → ProofGenerators → ZKPChallenge → Unit → Unit →
    Except ErrorKind Unit :=
  fun _ g _ _ _ =>
    match g with
    | ProofGenerators.PedersenGens _ => Except.ok ()
    | ProofGenerators.OooNGens _ => Except.error ErrorKind.VerificationError

/-- Witness for C10: swapping in the OooN-rejecting verifier does not
change the batched verifier's outcome, because no `OooNGens` bundle is
ever passed. -/
theorem C10_drivers_use_default_pedersen_gens_witness :
    verify_multiple_encryption_properties trivialVerify trivialTM [()] [()] [()] =
      verify_multiple_encryption_properties oooNRejectingVerify trivialTM
        [()] [()] [()] ∧
    encryptionProofGens = ProofGenerators.PedersenGens PedersenGens.default :=
  ⟨(C10_drivers_use_default_pedersen_gens trivialPM trivialPM trivialTM rfl
      (fun _ _ => rfl) rfl [] rngZero trivialVerify oooNRejectingVerify trivialTM
      (fun _ _ _ _ => rfl) [()] [()] [()]).2.1,
   (C10_drivers_use_default_pedersen_gens trivialPM trivialPM trivialTM rfl
      (fun _ _ => rfl) rfl [] rngZero trivialVerify oooNRejectingVerify trivialTM
      (fun _ _ _ _ => rfl) [()] [()] [()]).2.2⟩

-- ------------------------------------------------------------------------
-- ElGamal decryption lemmas
-- ------------------------------------------------------------------------

theorem dlogSearch_finds (target : GroupElement) (v : Nat) :
    ∀ cur fuel : Nat, cur ≤ v → v < cur + fuel →
    (v : Scalar) * genH = target →
    (∀ u, cur ≤ u → u < v → (u : Scalar) * genH ≠ target) →
    dlogSearch target cur fuel = some v := by
  intro cur fuel
  induction fuel generalizing cur with
  | zero => intro h1 h2 _ _; omega
  | succ n ih =>
    intro hcur hlt htarget hmin
    unfold dlogSearch
    by_cases hc : (cur : Scalar) * genH = target
    · have hev : cur = v := by
        rcases Nat.lt_or_ge cur v with h | h
        · exact absurd hc (hmin cur le_rfl h)
        · omega
      rw [if_pos hc, hev]
    · rw [if_neg hc]
      have hne : cur ≠ v := fun he => hc (he ▸ htarget)
      exact ih (cur + 1) (by omega) (by omega) htarget
        (fun u hu1 hu2 => hmin u (by omega) hu2)

theorem natCast_mul_genH_inj {u v : Nat} (hu : u < groupOrder) (hv : v < groupOrder)
    (h : (u : Scalar) * genH = (v : Scalar) * genH) : u = v := by
  have h2 : (u : Scalar) = (v : Scalar) := by
    have h3 := congrArg (fun z => z * genHInv) h
    simpa [mul_assoc, genH_mul_genHInv] using h3
  have h4 := congrArg ZMod.val h2
  rwa [ZMod.val_cast_of_lt hu, ZMod.val_cast_of_lt hv] at h4

theorem decodingBound_lt_groupOrder : decodingBound < groupOrder := by decide

/-- Decryption recovers `v` whenever Y − sk·X is exactly `v·H` and `v` is
inside the decoding bound. -/
theorem elgamalDecrypt_of_target (sk : Scalar) (ct : CipherText) (v : Nat)
    (hv : v < decodingBound)
    (ht : ct.y - sk * ct.x = (v : Scalar) * genH) :
    elgamalDecrypt sk ct = some v := by
  unfold elgamalDecrypt
  refine dlogSearch_finds _ v 0 decodingBound (Nat.zero_le v) (by omega) ht.symm ?_
  intro u _ huv hequ
  have hugh : (u : Scalar) * genH = (v : Scalar) * genH := by rw [hequ, ht]
  have := natCast_mul_genH_inj
    (lt_trans (lt_trans huv hv) decodingBound_lt_groupOrder)
    (lt_trans hv decodingBound_lt_groupOrder) hugh
  omega

/-- Decryption inverts encryption for a key pair with sk·pk = 1 and a value
inside the decoding bound. -/
theorem elgamalDecrypt_elgamalEncrypt (sk pk : Scalar) (w : CommitmentWitness)
    (v : Nat) (hkey : sk * pk = 1) (hval : w.value = (v : Scalar))
    (hv : v < decodingBound) :
    elgamalDecrypt sk (elgamalEncrypt pk w) = some v := by
  refine elgamalDecrypt_of_target sk _ v hv ?_
  have hbp : sk * (w.blinding * pk) = w.blinding := by
    rw [mul_comm w.blinding pk, ← mul_assoc, hkey, one_mul]
  simp only [elgamalEncrypt, genG, mul_one, hval, hbp, add_sub_cancel_left]

/-- Adding two encryptions under the same key is the encryption of the sum
of the witnesses. -/
theorem elgamalEncrypt_add (pk : Scalar) (a b : CommitmentWitness) :
    (elgamalEncrypt pk a).add (elgamalEncrypt pk b) =
      elgamalEncrypt pk ⟨a.value + b.value, a.blinding + b.blinding⟩ := by
  simp only [elgamalEncrypt, CipherText.add, CipherText.mk.injEq]
  constructor <;> ring

-- ------------------------------------------------------------------------
-- Characterizations of the asset-issuance engine
-- ------------------------------------------------------------------------

/-- `asset_issuance_init_verify` succeeds exactly when the issuer signature,
the encrypting-same-value proof and the wellformedness proof all verify. -/
theorem asset_issuance_init_verify_ok_iff (env : MercatEnv)
    (tx : InitializedAssetTx) (acct : PubAccount) (mk : EncryptionPubKey) :
    asset_issuance_init_verify env tx acct mk = Except.ok () ↔
      (env.verifySig acct.content.memo.owner_sign_pub_key SIG_CTXT
        (env.encodeContent tx.content) tx.sig = Except.ok () ∧
       env.verifySameValue ⟨acct.content.memo.owner_enc_pub_key, mk,
         acct.content.enc_asset_id, tx.content.enc_asset_id, PedersenGens.default⟩
         tx.content.asset_id_equal_cipher_proof = Except.ok () ∧
       env.verifyWellformedness ⟨acct.content.memo.owner_enc_pub_key,
         tx.content.memo, PedersenGens.default⟩
         tx.content.balance_wellformedness_proof = Except.ok ()) := by
  simp only [asset_issuance_init_verify]
  cases h1 : env.verifySig acct.content.memo.owner_sign_pub_key SIG_CTXT
      (env.encodeContent tx.content) tx.sig with
  | error e => simp [bind, Except.bind]
  | ok u =>
    cases u
    simp only [bind, Except.bind]
    cases h2 : env.verifySameValue ⟨acct.content.memo.owner_enc_pub_key, mk,
        acct.content.enc_asset_id, tx.content.enc_asset_id, PedersenGens.default⟩
        tx.content.asset_id_equal_cipher_proof with
    | error e => simp
    | ok u =>
      cases u
      simp

/-- `verify_asset_transaction` succeeds exactly when the mediator signature
and all the initialization checks verify, and then it returns the account
with the memo deposited. The mediator's balance-correctness proof is not
among the checks. -/
theorem verify_asset_transaction_ok_iff (env : MercatEnv)
    (jtx : JustifiedAssetTx) (acct : PubAccount) (mk : EncryptionPubKey)
    (msk : SigningPubKey) (res : PubAccount) :
    verify_asset_transaction env jtx acct mk msk = Except.ok res ↔
      (env.verifySig msk SIG_CTXT (env.encodeInitTx jtx.content) jtx.sig =
        Except.ok () ∧
       asset_issuance_init_verify env jtx.content acct mk = Except.ok () ∧
       res = deposit acct jtx.content.content.memo) := by
  simp only [verify_asset_transaction, verify_initialization]
  cases h1 : env.verifySig msk SIG_CTXT (env.encodeInitTx jtx.content) jtx.sig with
  | error e => simp [bind, Except.bind]
  | ok u =>
    cases u
    simp only [bind, Except.bind]
    cases h2 : asset_issuance_init_verify env jtx.content acct mk with
    | error e => simp
    | ok u =>
      cases u
      simp [pure, Except.pure, eq_comm]

/-- `justify_asset_transaction` succeeds exactly when the initialization
checks verify, the mediator can decrypt the amount, and the correctness
proof verifies against the decrypted amount; it then returns the untouched
initialized transaction signed by the mediator. -/
theorem justify_asset_transaction_ok_iff (env : MercatEnv)
    (init : InitializedAssetTx) (acct : PubAccount) (menc : EncryptionKeys)
    (msign : SigningKeys) (jt : JustifiedAssetTx) :
    justify_asset_transaction env init acct menc msign = Except.ok jt ↔
      (asset_issuance_init_verify env init acct menc.pblc = Except.ok () ∧
       (∃ amount : Nat,
         elgamalDecrypt menc.scrt init.content.enc_amount = some amount ∧
         env.verifyCorrectness ⟨(amount : Scalar),
           acct.content.memo.owner_enc_pub_key, init.content.memo,
           PedersenGens.default⟩ init.content.balance_correctness_proof =
             Except.ok ()) ∧
       jt = ⟨init, env.sign msign SIG_CTXT (env.encodeInitTx init)⟩) := by
  simp only [justify_asset_transaction]
  cases h1 : asset_issuance_init_verify env init acct menc.pblc with
  | error e => simp [bind, Except.bind]
  | ok u =>
    cases u
    simp only [bind, Except.bind]
    cases h2 : elgamalDecrypt menc.scrt init.content.enc_amount with
    | none => simp
    | some amount =>
      simp only [bind, Except.bind, pure, Except.pure]
      cases h3 : env.verifyCorrectness ⟨(amount : Scalar),
          acct.content.memo.owner_enc_pub_key, init.content.memo,
          PedersenGens.default⟩ init.content.balance_correctness_proof with
      | error e => simp [h3]
      | ok u =>
        cases u
        simp [h3, eq_comm]

-- ------------------------------------------------------------------------
-- C1: what the validator actually re-checks
-- ------------------------------------------------------------------------

/-- C1 (amended): `verify_asset_transaction` verifies the mediator signature
over the encoded content and re-runs the issuer's initialization checks —
the issuer signature, the `asset_id_equal_cipher_proof` and the
`balance_wellformedness_proof` — succeeding exactly when all of them pass,
before processing the transaction; the `balance_correctness_proof` is not
re-verified by the validator (its outcome is entirely independent of the
correctness verifier). -/
theorem C1_validator_checks (env : MercatEnv) (jtx : JustifiedAssetTx)
    (acct : PubAccount) (mk : EncryptionPubKey) (msk : SigningPubKey) :
    (verify_asset_transaction env jtx acct mk msk =
        Except.ok (deposit acct jtx.content.content.memo) ↔
      (env.verifySig msk SIG_CTXT (env.encodeInitTx jtx.content) jtx.sig =
        Except.ok () ∧
       env.verifySig acct.content.memo.owner_sign_pub_key SIG_CTXT
         (env.encodeContent jtx.content.content) jtx.content.sig = Except.ok () ∧
       env.verifySameValue ⟨acct.content.memo.owner_enc_pub_key, mk,
         acct.content.enc_asset_id, jtx.content.content.enc_asset_id,
         PedersenGens.default⟩ jtx.content.content.asset_id_equal_cipher_proof =
           Except.ok () ∧
       env.verifyWellformedness ⟨acct.content.memo.owner_enc_pub_key,
         jtx.content.content.memo, PedersenGens.default⟩
         jtx.content.content.balance_wellformedness_proof = Except.ok ())) ∧
    (∀ res, verify_asset_transaction env jtx acct mk msk = Except.ok res →
      res = deposit acct jtx.content.content.memo) ∧
    (∀ f, verify_asset_transaction
        { env with verifyCorrectness := f } jtx acct mk msk =
      verify_asset_transaction env jtx acct mk msk) := by
  refine ⟨?_, ?_, ?_⟩
  · rw [verify_asset_transaction_ok_iff, asset_issuance_init_verify_ok_iff]
    simp [and_assoc]
  · intro res h
    exact ((verify_asset_transaction_ok_iff env jtx acct mk msk res).mp h).2.2
  · intro f
    rfl

/-- An environment whose signature and sigma checks all accept but whose
correctness verification rejects everything. -/
def envNoCorrect : MercatEnv where
  encodeContent := fun _ => []
  encodeInitTx := fun _ => []
  sign := fun _ _ _ => 0
  verifySig := fun _ _ _ _ => Except.ok ()
  verifySameValue := fun _ _ => Except.ok ()
  verifyWellformedness := fun _ _ => Except.ok ()
  verifyCorrectness := fun _ _ => Except.error ErrorKind.VerificationError
  proveSameValue := fun _ r => Except.ok (0, r)
  proveWellformedness := fun _ r => Except.ok (0, r)
  proveCorrectness := fun _ r => Except.ok (0, r)

/-- A concrete issuer public account. -/
def cexAccount : PubAccount := ⟨⟨1, ⟨0, 0⟩, ⟨0, 0⟩, 0, 0, 0, ⟨1, 1⟩⟩, 0⟩

/-- A concrete initialized transaction. -/
def cexInitTx : InitializedAssetTx := ⟨⟨1234, ⟨0, 0⟩, ⟨0, 0⟩, ⟨0, 0⟩, 0, 0, 0⟩, 0⟩

/-- The same transaction justified. -/
def cexJustifiedTx : JustifiedAssetTx := ⟨cexInitTx, 0⟩

/-- C1 counterexample: the validator accepts this concrete transaction even
though its `balance_correctness_proof` fails every correctness
verification in the environment — so the validator does not re-run the
balance-correctness proof, contrary to the claim. -/
theorem C1_counterexample :
    verify_asset_transaction envNoCorrect cexJustifiedTx cexAccount 1 1 =
      Except.ok (deposit cexAccount cexInitTx.content.memo) ∧
    envNoCorrect.verifyCorrectness
      ⟨0, cexAccount.content.memo.owner_enc_pub_key, cexInitTx.content.memo,
        PedersenGens.default⟩ cexInitTx.content.balance_correctness_proof =
      Except.error ErrorKind.VerificationError :=
  ⟨rfl, rfl⟩

/-- Witness for the amended C1 at a concrete accepting run. -/
theorem C1_validator_checks_witness :
    verify_asset_transaction envNoCorrect cexJustifiedTx cexAccount 1 1 =
      Except.ok (deposit cexAccount cexJustifiedTx.content.content.memo) :=
  (C1_validator_checks envNoCorrect cexJustifiedTx cexAccount 1 1).1.mpr
    ⟨rfl, rfl, rfl, rfl⟩

-- ------------------------------------------------------------------------
-- C2: the mediator's justification
-- ------------------------------------------------------------------------

/-- C2: `justify_asset_transaction` returns Ok exactly when the issuer
signature, the same-value proof and the wellformedness proof verify, the
amount decrypts under the mediator secret key, and the correctness proof
verifies against the decrypted value; on success the justified transaction
carries the initialized transaction unchanged and the mediator's signature
over its encoding under the "mercat/asset" context. -/
theorem C2_justify_asset_transaction (env : MercatEnv)
    (init : InitializedAssetTx) (acct : PubAccount) (menc : EncryptionKeys)
    (msign : SigningKeys) :
    (∀ jt, justify_asset_transaction env init acct menc msign = Except.ok jt →
      jt.content = init ∧
      jt.sig = env.sign msign SIG_CTXT (env.encodeInitTx init)) ∧
    (justify_asset_transaction env init acct menc msign =
        Except.ok ⟨init, env.sign msign SIG_CTXT (env.encodeInitTx init)⟩ ↔
      (env.verifySig acct.content.memo.owner_sign_pub_key SIG_CTXT
        (env.encodeContent init.content) init.sig = Except.ok () ∧
       env.verifySameValue ⟨acct.content.memo.owner_enc_pub_key, menc.pblc,
         acct.content.enc_asset_id, init.content.enc_asset_id,
         PedersenGens.default⟩ init.content.asset_id_equal_cipher_proof =
           Except.ok () ∧
       env.verifyWellformedness ⟨acct.content.memo.owner_enc_pub_key,
         init.content.memo, PedersenGens.default⟩
         init.content.balance_wellformedness_proof = Except.ok () ∧
       ∃ amount : Nat,
         elgamalDecrypt menc.scrt init.content.enc_amount = some amount ∧
         env.verifyCorrectness ⟨(amount : Scalar),
           acct.content.memo.owner_enc_pub_key, init.content.memo,
           PedersenGens.default⟩ init.content.balance_correctness_proof =
             Except.ok ())) := by
  constructor
  · intro jt h
    have hc := (justify_asset_transaction_ok_iff env init acct menc msign jt).mp h
    rw [hc.2.2]
    exact ⟨rfl, rfl⟩
  · rw [justify_asset_transaction_ok_iff, asset_issuance_init_verify_ok_iff]
    simp [and_assoc]

/-- An environment where every signature and sigma check accepts. -/
def envAllOk : MercatEnv where
  encodeContent := fun _ => []
  encodeInitTx := fun _ => []
  sign := fun _ _ _ => 0
  verifySig := fun _ _ _ _ => Except.ok ()
  verifySameValue := fun _ _ => Except.ok ()
  verifyWellformedness := fun _ _ => Except.ok ()
  verifyCorrectness := fun _ _ => Except.ok ()
  proveSameValue := fun _ r => Except.ok (0, r)
  proveWellformedness := fun _ r => Except.ok (0, r)
  proveCorrectness := fun _ r => Except.ok (0, r)

/-- An initialized transaction whose mediator-encrypted amount is the
ciphertext (0, 60), which decrypts to 20 under the secret key 1 (since
60 = 20·H with H at exponent 3). -/
def c2InitTx : InitializedAssetTx := ⟨⟨1234, ⟨0, 0⟩, ⟨0, 60⟩, ⟨0, 0⟩, 0, 0, 0⟩, 0⟩

/-- Witness for C2 at a concrete accepting justification. -/
theorem C2_justify_asset_transaction_witness :
    justify_asset_transaction envAllOk c2InitTx cexAccount ⟨1, 1⟩ 7 =
      Except.ok ⟨c2InitTx, envAllOk.sign 7 SIG_CTXT (envAllOk.encodeInitTx c2InitTx)⟩ :=
  (C2_justify_asset_transaction envAllOk c2InitTx cexAccount ⟨1, 1⟩ 7).2.mpr
    ⟨rfl, rfl, rfl, 20, by decide, rfl⟩

-- ------------------------------------------------------------------------
-- C3: processing is a pure homomorphic balance update
-- ------------------------------------------------------------------------

/-- C3: on a successful verification the returned account differs from the
input account only in its encrypted balance, which becomes the homomorphic
sum of the previous balance and the memo ciphertext — so decrypting the
new balance yields the old balance plus the issued amount; every other
field is unchanged, and neither the account's stored membership proof nor
its wellformedness proof is consulted anywhere in the run. -/
theorem C3_processing_frame_and_homomorphism (env : MercatEnv)
    (jtx : JustifiedAssetTx) (acct : PubAccount) (mk : EncryptionPubKey)
    (msk : SigningPubKey) (res : PubAccount)
    (h : verify_asset_transaction env jtx acct mk msk = Except.ok res) :
    (res.content.enc_balance =
        acct.content.enc_balance.add jtx.content.content.memo ∧
     res.content.id = acct.content.id ∧
     res.content.enc_asset_id = acct.content.enc_asset_id ∧
     res.content.asset_wellformedness_proof =
        acct.content.asset_wellformedness_proof ∧
     res.content.asset_membership_proof = acct.content.asset_membership_proof ∧
     res.content.initial_balance_correctness_proof =
        acct.content.initial_balance_correctness_proof ∧
     res.content.memo = acct.content.memo ∧
     res.initial_sig = acct.initial_sig) ∧
    (∀ (sk : Scalar) (vB vM : Nat) (wB wM : CommitmentWitness),
      acct.content.enc_balance =
        elgamalEncrypt acct.content.memo.owner_enc_pub_key wB →
      jtx.content.content.memo =
        elgamalEncrypt acct.content.memo.owner_enc_pub_key wM →
      wB.value = (vB : Scalar) → wM.value = (vM : Scalar) →
      sk * acct.content.memo.owner_enc_pub_key = 1 →
      vB < decodingBound → vM < decodingBound → vB + vM < decodingBound →
      elgamalDecrypt sk acct.content.enc_balance = some vB ∧
      elgamalDecrypt sk jtx.content.content.memo = some vM ∧
      elgamalDecrypt sk res.content.enc_balance = some (vB + vM)) ∧
    (∀ p q, verify_asset_transaction env jtx
        { acct with content := { acct.content with
            asset_wellformedness_proof := p,
            asset_membership_proof := q } } mk msk =
      Except.ok { res with content := { res.content with
            asset_wellformedness_proof := p,
            asset_membership_proof := q } }) := by
  obtain ⟨hsig, hinit, hres⟩ :=
    (verify_asset_transaction_ok_iff env jtx acct mk msk res).mp h
  subst hres
  refine ⟨⟨rfl, rfl, rfl, rfl, rfl, rfl, rfl, rfl⟩, ?_, ?_⟩
  · intro sk vB vM wB wM hB hM hvB hvM hkey h1 h2 h3
    refine ⟨?_, ?_, ?_⟩
    · rw [hB]
      exact elgamalDecrypt_elgamalEncrypt sk _ wB vB hkey hvB h1
    · rw [hM]
      exact elgamalDecrypt_elgamalEncrypt sk _ wM vM hkey hvM h2
    · change elgamalDecrypt sk
        (acct.content.enc_balance.add jtx.content.content.memo) = some (vB + vM)
      rw [hB, hM, elgamalEncrypt_add]
      refine elgamalDecrypt_elgamalEncrypt sk _ _ (vB + vM) hkey ?_ h3
      simp [hvB, hvM]
  · intro p q
    rw [verify_asset_transaction_ok_iff]
    exact ⟨hsig, hinit, rfl⟩

/-- An issuer account with balance Enc(1; 5, 9) under the owner key 1. -/
def acct3 : PubAccount :=
  ⟨⟨1, ⟨0, 0⟩, elgamalEncrypt 1 ⟨5, 9⟩, 0, 0, 0, ⟨1, 1⟩⟩, 0⟩

/-- A justified transaction whose memo is Enc(1; 7, 4). -/
def jtx3 : JustifiedAssetTx :=
  ⟨⟨⟨1, ⟨0, 0⟩, ⟨0, 0⟩, elgamalEncrypt 1 ⟨7, 4⟩, 0, 0, 0⟩, 0⟩, 0⟩

/-- Witness for C3: depositing the memo Enc(5) ⊕ Enc(7) decrypts to 12 and
the asset id is unchanged. -/
theorem C3_processing_witness :
    elgamalDecrypt 1
      (deposit acct3 jtx3.content.content.memo).content.enc_balance = some 12 ∧
    (deposit acct3 jtx3.content.content.memo).content.enc_asset_id =
      acct3.content.enc_asset_id := by
  have h := C3_processing_frame_and_homomorphism envAllOk jtx3 acct3 1 1
    (deposit acct3 jtx3.content.content.memo) rfl
  exact ⟨(h.2.1 1 5 7 ⟨5, 9⟩ ⟨7, 4⟩ rfl rfl (by decide) (by decide) (by decide)
    (by decide) (by decide) (by decide)).2.2, h.1.2.2.1⟩

-- ------------------------------------------------------------------------
-- C4: the mediator copy of the asset id reuses the account's witness
-- ------------------------------------------------------------------------

theorem except_bind_ok {E A B : Type} {a : Except E A} {k : A → Except E B} {b : B}
    (h : a >>= k = Except.ok b) : ∃ x, a = Except.ok x ∧ k x = Except.ok b := by
  cases a with
  | error e => simp [bind, Except.bind] at h
  | ok x => exact ⟨x, rfl, by simpa [bind, Except.bind] using h⟩

/-- C4: the initialized transaction's `enc_asset_id` is the deterministic
encryption of the issuer account's stored asset-id witness under the
mediator's public key; whenever the issuer's public account's encrypted
asset id was produced from that same witness under the issuer's key, a
single (value, blinding) witness therefore opens both ciphertexts. -/
theorem C4_enc_asset_id_same_witness (env : MercatEnv) (aid : Nat)
    (sec : SecAccount) (mpk : EncryptionPubKey) (amount : Nat) (rng : Rng)
    (tx : InitializedAssetTx)
    (h : initialize_asset_transaction env aid sec mpk amount rng = Except.ok tx) :
    tx.content.enc_asset_id = elgamalEncrypt mpk sec.asset_id_witness ∧
    (∀ pubacct : PubAccount,
      pubacct.content.enc_asset_id =
        elgamalEncrypt sec.enc_keys.pblc sec.asset_id_witness →
      ∃ w : CommitmentWitness,
        pubacct.content.enc_asset_id = elgamalEncrypt sec.enc_keys.pblc w ∧
        tx.content.enc_asset_id = elgamalEncrypt mpk w) := by
  have h1 : tx.content.enc_asset_id = elgamalEncrypt mpk sec.asset_id_witness := by
    simp only [initialize_asset_transaction, encryptValue] at h
    obtain ⟨⟨p1, rng1⟩, -, h⟩ := except_bind_ok h
    dsimp only at h
    obtain ⟨⟨p2, rng2⟩, -, h⟩ := except_bind_ok h
    dsimp only at h
    obtain ⟨⟨p3, rng3⟩, -, h⟩ := except_bind_ok h
    dsimp only at h
    cases h
    rfl
  exact ⟨h1, fun pubacct hpub => ⟨sec.asset_id_witness, hpub, h1⟩⟩

/-- A concrete issuer secret account (keys 1, witness (2, 3)). -/
def sec4 : SecAccount := ⟨⟨1, 1⟩, 7, ⟨2, 3⟩⟩

/-- The transaction `initialize_asset_transaction` builds from `sec4` in
the all-accepting environment with the all-zero RNG and amount 4. -/
def tx4 : InitializedAssetTx :=
  ⟨⟨1, elgamalEncrypt 1 ⟨2, 3⟩, elgamalEncrypt 1 ⟨((4 : Nat) : Scalar), 0⟩,
    elgamalEncrypt 1 ⟨((4 : Nat) : Scalar), 0⟩, 0, 0, 0⟩, 0⟩

/-- A public account holding the encryption of the same witness under the
issuer key. -/
def acct4 : PubAccount :=
  ⟨⟨1, elgamalEncrypt 1 ⟨2, 3⟩, ⟨0, 0⟩, 0, 0, 0, ⟨1, 1⟩⟩, 0⟩

/-- Witness for C4 at a concrete issuance. -/
theorem C4_enc_asset_id_same_witness_witness :
    tx4.content.enc_asset_id = elgamalEncrypt 1 sec4.asset_id_witness ∧
    (∃ w : CommitmentWitness,
      acct4.content.enc_asset_id = elgamalEncrypt sec4.enc_keys.pblc w ∧
      tx4.content.enc_asset_id = elgamalEncrypt 1 w) := by
  have h := C4_enc_asset_id_same_witness envAllOk 1 sec4 1 4 rngZero tx4 rfl
  exact ⟨h.1, h.2 acct4 rfl⟩
